import Mathlib

/-!
Verification of the service-provisioning orchestrator of `dustcfg`
(`src/main.rs`, function `setup_services`).

The development is a shallow embedding of `setup_services`:

* the pure line transformation `line.replace("export ", "Environment=")`
  is embedded as `replaceLoop` / `transcodeLine`;
* the line splitting of `BufReader::lines()` is embedded as `rustLines`;
* the effectful body of `setup_services` is embedded as a function from a
  `World` (the outcomes the environment gives to each fallible call) to
  the ordered trace of external actions (`Event`) performed and a success
  flag (`false` = the function returned early with an `Err`, which is the
  `?` operator propagating an `std::io` error);
* the per-service override-directory sequence is additionally embedded as
  a state transformer on a small directory model (`odmRun`).
-/

namespace Dustcfg

/-- The pattern of the `replace` call in
`line?.replace("export ", "Environment=")` (main.rs line 59), as a char
list. -/
def expChars : List Char := "export ".toList

/-- The replacement string of the same `replace` call, as a char list. -/
def envChars : List Char := "Environment=".toList

/-- Embedding of Rust `str::replace(\"export \", \"Environment=\")`, which
replaces every non-overlapping occurrence of the pattern, scanning left to
right.  Fuel-based structural recursion; the fuel only needs to dominate
the number of scanning steps, which is at most the length of the input
(each step consumes at least one input char). -/
def replaceLoop : Nat → List Char → List Char
  | _, [] => []
  | 0, s => s
  | fuel + 1, c :: cs =>
    if expChars.isPrefixOf (c :: cs) then envChars ++ replaceLoop fuel (cs.drop 6)
    else c :: replaceLoop fuel cs

/-- Char-list form of the transcoding of one settings line
(main.rs line 59): all occurrences of `export ` replaced by
`Environment=`. -/
def rustReplace (l : List Char) : List Char := replaceLoop l.length l

/-- The Environment Transcoder: embedding of
`line.replace("export ", "Environment=")` on Rust `String`s. -/
def transcodeLine (s : String) : String := String.mk (rustReplace s.toList)

/-- Modelled from the spec: the transformation the spec describes for the
Environment Transcoder, `if the line contains the substring export
(first occurrence only), that occurrence is replaced with Environment=`.
Used only to compare the spec's description against `transcodeLine`. -/
def replaceFirstAux : List Char → List Char
  | [] => []
  | c :: cs =>
    if expChars.isPrefixOf (c :: cs) then envChars ++ cs.drop 6
    else c :: replaceFirstAux cs

/-- Modelled from the spec: string form of `replaceFirstAux`. -/
def replaceFirstOnly (s : String) : String := String.mk (replaceFirstAux s.toList)

/-- Decidable scan for an occurrence of `export ` (the transcoding marker)
in a char list. -/
def hasMarker : List Char → Bool
  | [] => false
  | c :: cs => expChars.isPrefixOf (c :: cs) || hasMarker cs

/-- Restatement of the library equivalence between the executable
`List.isPrefixOf` and the `<+:` relation, for char lists. -/
theorem isPrefixOf_eq_true_iff (l₁ l₂ : List Char) :
    l₁.isPrefixOf l₂ = true ↔ l₁ <+: l₂ :=
  List.isPrefixOf_iff_prefix

theorem hasMarker_eq_true_iff (l : List Char) : hasMarker l = true ↔ expChars <:+: l := by
  induction l with
  | nil =>
    simp only [hasMarker, List.infix_nil]
    constructor
    · intro h; cases h
    · intro h; simp [expChars] at h
  | cons c cs ih =>
    simp only [hasMarker, Bool.or_eq_true, List.infix_cons_iff, ih,
      isPrefixOf_eq_true_iff]

theorem replaceLoop_of_no_marker (fuel : Nat) (l : List Char) (h : hasMarker l = false) :
    replaceLoop fuel l = l := by
  induction fuel generalizing l with
  | zero => cases l <;> rfl
  | succ fuel ih =>
    cases l with
    | nil => rfl
    | cons c cs =>
      simp only [hasMarker, Bool.or_eq_false_iff] at h
      simp only [replaceLoop, h.1, Bool.false_eq_true, if_false]
      rw [ih cs h.2]

/-- Fuel irrelevance: any fuel at least the length of the input computes
the full replacement. -/
theorem replaceLoop_fuel (f₁ f₂ : Nat) (l : List Char) (h₁ : l.length ≤ f₁)
    (h₂ : l.length ≤ f₂) : replaceLoop f₁ l = replaceLoop f₂ l := by
  induction f₁ generalizing f₂ l with
  | zero =>
    have hl : l = [] := List.eq_nil_of_length_eq_zero (Nat.le_zero.mp h₁)
    subst hl
    cases f₂ <;> rfl
  | succ f₁ ih =>
    cases l with
    | nil => cases f₂ <;> rfl
    | cons c cs =>
      cases f₂ with
      | zero => simp at h₂
      | succ f₂ =>
        simp only [List.length_cons, Nat.succ_le_succ_iff] at h₁ h₂
        simp only [replaceLoop]
        by_cases hp : expChars.isPrefixOf (c :: cs) = true
        · rw [hp]
          simp only [if_true]
          rw [ih f₂ (cs.drop 6) (le_trans (List.length_drop 6 cs ▸ Nat.sub_le _ _) h₁)
            (le_trans (List.length_drop 6 cs ▸ Nat.sub_le _ _) h₂)]
        · rw [Bool.not_eq_true] at hp
          rw [hp]
          simp only [Bool.false_eq_true, if_false]
          rw [ih f₂ cs h₁ h₂]

theorem rustReplace_cons_of_marker (c : Char) (cs : List Char)
    (h : expChars.isPrefixOf (c :: cs) = true) :
    rustReplace (c :: cs) = envChars ++ rustReplace ((c :: cs).drop 7) := by
  show replaceLoop (cs.length + 1) (c :: cs) = _
  simp only [replaceLoop, h, if_true]
  have hd : (c :: cs).drop 7 = cs.drop 6 := rfl
  rw [hd]
  congr 1
  exact replaceLoop_fuel cs.length (cs.drop 6).length (cs.drop 6)
    (le_trans (Nat.le_of_eq rfl) (List.length_drop 6 cs ▸ Nat.sub_le _ _)) le_rfl

theorem rustReplace_cons_of_no_match (c : Char) (cs : List Char)
    (h : expChars.isPrefixOf (c :: cs) = false) :
    rustReplace (c :: cs) = c :: rustReplace cs := by
  show replaceLoop (cs.length + 1) (c :: cs) = _
  simp only [replaceLoop, h, Bool.false_eq_true, if_false]
  rfl

theorem rustReplace_decomp (l : List Char) (h : hasMarker l = true) :
    ∃ a b, l = a ++ expChars ++ b ∧ hasMarker a = false ∧
      rustReplace l = a ++ envChars ++ rustReplace b := by
  induction l with
  | nil => simp [hasMarker] at h
  | cons c cs ih =>
    by_cases hp : expChars.isPrefixOf (c :: cs) = true
    · refine ⟨[], (c :: cs).drop 7, ?_, rfl, ?_⟩
      · obtain ⟨t, ht⟩ := (isPrefixOf_eq_true_iff _ _).mp hp
        have hlen : expChars.length = 7 := rfl
        have hdrop : (c :: cs).drop 7 = t := by
          rw [← ht, ← hlen, List.drop_left]
        rw [hdrop, List.nil_append, ht]
      · rw [rustReplace_cons_of_marker c cs hp, List.nil_append]
    · rw [Bool.not_eq_true] at hp
      have hcs : hasMarker cs = true := by
        simpa [hasMarker, hp] using h
      obtain ⟨a, b, hab, hna, hr⟩ := ih hcs
      refine ⟨c :: a, b, by simp [hab], ?_, ?_⟩
      · simp only [hasMarker, Bool.or_eq_false_iff]
        refine ⟨?_, hna⟩
        rw [Bool.eq_false_iff]
        intro hcp
        have h1 : expChars <+: c :: a := (isPrefixOf_eq_true_iff _ _).mp hcp
        have h2 : (c :: a) <+: c :: cs :=
          ⟨expChars ++ b, by simp [hab]⟩
        have h3 := (isPrefixOf_eq_true_iff _ _).mpr (h1.trans h2)
        rw [hp] at h3
        cases h3
      · rw [rustReplace_cons_of_no_match c cs hp, hr]
        simp

/-- C1 counterexample: on the settings line `export export B` (which
contains the marker twice) the transcoder rewrites both occurrences, not
only the first one as the claim states: the claimed output
`Environment=export B` differs from the actual output
`Environment=Environment=B`. -/
theorem transcoder_first_occurrence_counterexample :
    transcodeLine "export export B" = "Environment=Environment=B" ∧
    replaceFirstOnly "export export B" = "Environment=export B" ∧
    transcodeLine "export export B" ≠ replaceFirstOnly "export export B" :=
  ⟨rfl, rfl, by decide⟩

/-- C1 (corrected): for every settings line containing `export `, the
Environment Transcoder returns the line with the first occurrence of
`export ` replaced by `Environment=`, the text before that occurrence
unaltered, and the remainder after it transcoded again the same way — so
every left-to-right non-overlapping occurrence is replaced, not only the
first. -/
theorem transcoder_replaces_every_occurrence (s : String)
    (h : expChars <:+: s.toList) :
    ∃ a b : List Char, s.toList = a ++ expChars ++ b ∧ ¬ expChars <:+: a ∧
      (transcodeLine s).toList = a ++ envChars ++ rustReplace b := by
  obtain ⟨a, b, hab, hna, hr⟩ := rustReplace_decomp s.toList
    ((hasMarker_eq_true_iff _).mpr h)
  refine ⟨a, b, hab, ?_, hr⟩
  intro hinf
  rw [← hasMarker_eq_true_iff, hna] at hinf
  cases hinf

theorem transcoder_replaces_every_occurrence_witness :
    ∃ a b : List Char, "export B".toList = a ++ expChars ++ b ∧ ¬ expChars <:+: a ∧
      (transcodeLine "export B").toList = a ++ envChars ++ rustReplace b :=
  transcoder_replaces_every_occurrence "export B"
    (by rw [← hasMarker_eq_true_iff]; decide)

/-- C7 (confirmed): a settings line that does not contain the substring
`export ` is returned unchanged by the Environment Transcoder. -/
theorem transcoder_identity_without_marker (s : String)
    (h : ¬ expChars <:+: s.toList) : transcodeLine s = s := by
  have hm : hasMarker s.toList = false := by
    rw [← Bool.not_eq_true, hasMarker_eq_true_iff]
    exact h
  show String.mk (replaceLoop s.toList.length s.toList) = s
  rw [replaceLoop_of_no_marker _ _ hm]
  cases s
  rfl

theorem transcoder_identity_without_marker_witness :
    transcodeLine "DUST_PATH=/var/dust" = "DUST_PATH=/var/dust" :=
  transcoder_identity_without_marker "DUST_PATH=/var/dust"
    (by rw [← hasMarker_eq_true_iff]; decide)

/-! ## The Settings Reader: `BufReader::lines()` (main.rs lines 55-58) -/

/-- One step of `BufRead::lines`: a line terminated by `'\n'` has the
terminator removed, and then a trailing `'\r'` removed if present. -/
def stripCRChars (l : List Char) : List Char :=
  match l.getLast? with
  | some c => if c = '\r' then l.dropLast else l
  | none => l

/-- Embedding of the iteration of `BufReader::lines()`: split at every
`'\n'` (stripping a trailing `'\r'` of each terminated line); a final
unterminated fragment is yielded as-is; an empty trailing fragment is not
yielded.  `acc` is the reversed accumulator of the current line. -/
def rustLinesAux (acc : List Char) : List Char → List (List Char)
  | [] => if acc.isEmpty then [] else [acc.reverse]
  | c :: cs =>
    if c = '\n' then stripCRChars acc.reverse :: rustLinesAux [] cs
    else rustLinesAux (c :: acc) cs

/-- The sequence of lines `reader.lines()` yields for a settings file with
content `s`. -/
def rustLines (s : String) : List String :=
  (rustLinesAux [] s.toList).map String.mk

/-- Concatenation of a list of strings (the content successive `write`
calls accumulate in a file). -/
def concatAll : List String → String
  | [] => ""
  | s :: ss => s ++ concatAll ss

/-- The byte content `setup_services` produces in a service's override
conf file (main.rs lines 49-61): the literal header `[Service]\n` followed
by each settings line transcoded and newline-terminated, in source
order. -/
def confFileContent (settings : String) : String :=
  "[Service]\n" ++ concatAll ((rustLines settings).map (fun l => transcodeLine l ++ "\n"))

/-! ## Trace semantics of `setup_services` (main.rs lines 17-84)

Every external action the function performs is recorded as an `Event`, in
program order.  A `World` fixes the outcome of each fallible call: whether
a subprocess can be spawned (`Command::output` returns `Err` only when the
process cannot be launched), the exit status a launched subprocess
reports (captured in the `Output` value), whether `File::create`, `write`
and `flush` succeed, and the content of `dust.settings` (`none` = the
file cannot be opened).  The embedding returns the trace of events
performed before returning, and `true` iff the function reaches `Ok(())`
(a `false` means some `?` propagated an `std::io::Error`). -/

/-- One observable external action of `setup_services`. -/
inductive Event where
  | cmd (prog : String) (args : List String) (exitCode : Int)
  | fileCreate (path : String)
  | fileWrite (path : String) (data : String)
  | fileOpen (path : String)
  | fileFlush (path : String)
  deriving DecidableEq, Repr

/-- The outcomes the environment gives to each fallible call of
`setup_services`. -/
structure World where
  spawnOk : String → List String → Bool
  exitCode : String → List String → Int
  createOk : String → Bool
  writeOk : String → Bool
  flushOk : String → Bool
  settings : Option String

/-- Sequencing with early return: run `a`; if it failed, stop with its
trace; otherwise run the continuation and append its trace (the `?`
operator). -/
def andThenStep (a : List Event × Bool) (k : Unit → List Event × Bool) : List Event × Bool :=
  match a with
  | (t, false) => (t, false)
  | (t, true) => let r := k (); (t ++ r.1, r.2)

/-- `Command::new(p).arg(...)....output()?`: fails only if the process
cannot be spawned; a spawned process records its exit status in the
trace, and the status is not looked at. -/
def cmdStep (w : World) (p : String) (a : List String) : List Event × Bool :=
  if w.spawnOk p a then ([Event.cmd p a (w.exitCode p a)], true) else ([], false)

/-- The per-service override directory
`/etc/systemd/system/<name>.service.d/` (main.rs lines 38, 44). -/
def overrideDir (n : String) : String := "/etc/systemd/system/" ++ n ++ ".service.d/"

/-- The per-service conf file path
`/etc/systemd/system/<name>.service.d/<name>.conf` (main.rs lines 50-52). -/
def confPath (n : String) : String := overrideDir n ++ n ++ ".conf"

/-- `File::create(path)?` (main.rs line 49). -/
def createStep (w : World) (path : String) : List Event × Bool :=
  if w.createOk path then ([Event.fileCreate path], true) else ([], false)

/-- `out_file.write(data)?` (main.rs lines 54, 59). -/
def writeStep (w : World) (path data : String) : List Event × Bool :=
  if w.writeOk path then ([Event.fileWrite path data], true) else ([], false)

/-- The loop `for line in reader.lines() { out_file.write(format!("{}\n",
line?.replace("export ", "Environment=")))?; }` (main.rs lines 57-60). -/
def writeLinesLoop (w : World) (path : String) : List String → List Event × Bool
  | [] => ([], true)
  | l :: ls =>
    andThenStep (writeStep w path (transcodeLine l ++ "\n")) fun _ =>
      writeLinesLoop w path ls

/-- `File::open("dust.settings")?` followed by the line-writing loop
(main.rs lines 55-60).  Opening fails iff the world has no settings
content. -/
def settingsLoop (w : World) (path : String) : List Event × Bool :=
  match w.settings with
  | none => ([], false)
  | some content =>
    andThenStep ([Event.fileOpen "dust.settings"], true) fun _ =>
      writeLinesLoop w path (rustLines content)

/-- `out_file.flush()?` (main.rs line 61). -/
def flushStep (w : World) (path : String) : List Event × Bool :=
  if w.flushOk path then ([Event.fileFlush path], true) else ([], false)

/-- The body of the first `for service_name in ["dustweb", "dustdb"]` loop
(main.rs lines 18-62): `cargo install`, `cp` of the unit file, `rm -rf` of
the override directory, `mkdir`, creation of the conf file, writing the
`[Service]` header, then the settings lines, then `flush`. -/
def perServiceSetup (w : World) (n : String) : List Event × Bool :=
  andThenStep (cmdStep w "cargo" ["install", "--path", "/dust/" ++ n ++ "/."]) fun _ =>
  andThenStep (cmdStep w "cp" ["/dust/dustcfg/" ++ n ++ ".service", "/etc/systemd/system/."]) fun _ =>
  andThenStep (cmdStep w "rm" ["-rf", overrideDir n]) fun _ =>
  andThenStep (cmdStep w "mkdir" [overrideDir n]) fun _ =>
  andThenStep (createStep w (confPath n)) fun _ =>
  andThenStep (writeStep w (confPath n) "[Service]\n") fun _ =>
  andThenStep (settingsLoop w (confPath n)) fun _ =>
  flushStep w (confPath n)

/-- The fixed service list `["dustweb", "dustdb"]` (main.rs lines 18, 68). -/
def servicesList : List String := ["dustweb", "dustdb"]

/-- The first loop of `setup_services` over the fixed service list. -/
def setupLoop (w : World) : List String → List Event × Bool
  | [] => ([], true)
  | n :: ns => andThenStep (perServiceSetup w n) fun _ => setupLoop w ns

/-- The `systemctl enable` / `systemctl start` loop (main.rs lines 68-80). -/
def activateLoop (w : World) : List String → List Event × Bool
  | [] => ([], true)
  | n :: ns =>
    andThenStep (cmdStep w "systemctl" ["enable", n]) fun _ =>
    andThenStep (cmdStep w "systemctl" ["start", n]) fun _ =>
    activateLoop w ns

/-- `systemctl daemon-reload` followed by the enable/start loop
(main.rs lines 64-80). -/
def reloadActivate (w : World) : List Event × Bool :=
  andThenStep (cmdStep w "systemctl" ["daemon-reload"]) fun _ =>
    activateLoop w servicesList

/-- The whole of `setup_services` (main.rs lines 17-84): per-service setup
for every service, then daemon-reload, then enable/start per service. -/
def setup_services (w : World) : List Event × Bool :=
  andThenStep (setupLoop w servicesList) fun _ => reloadActivate w

/-! ### Structural lemmas about the sequencing -/

theorem andThenStep_fst (a : List Event × Bool) (k : Unit → List Event × Bool) :
    (andThenStep a k).1 = a.1 ++ (if a.2 = true then (k ()).1 else []) := by
  rcases a with ⟨t, b⟩
  cases b <;> simp [andThenStep]

theorem andThenStep_snd (a : List Event × Bool) (k : Unit → List Event × Bool) :
    (andThenStep a k).2 = (a.2 && (k ()).2) := by
  rcases a with ⟨t, b⟩
  cases b <;> simp [andThenStep]

theorem cmdStep_snd (w : World) (p : String) (a : List String) :
    (cmdStep w p a).2 = w.spawnOk p a := by
  cases h : w.spawnOk p a <;> simp [cmdStep, h]

theorem createStep_snd (w : World) (path : String) :
    (createStep w path).2 = w.createOk path := by
  cases h : w.createOk path <;> simp [createStep, h]

theorem writeStep_snd (w : World) (path data : String) :
    (writeStep w path data).2 = w.writeOk path := by
  cases h : w.writeOk path <;> simp [writeStep, h]

theorem flushStep_snd (w : World) (path : String) :
    (flushStep w path).2 = w.flushOk path := by
  cases h : w.flushOk path <;> simp [flushStep, h]

theorem cmdStep_fst_of_spawn (w : World) (p : String) (a : List String)
    (h : w.spawnOk p a = true) :
    cmdStep w p a = ([Event.cmd p a (w.exitCode p a)], true) := by
  simp [cmdStep, h]

theorem mem_cmdStep {e : Event} (w : World) (p : String) (a : List String)
    (h : e ∈ (cmdStep w p a).1) : e = Event.cmd p a (w.exitCode p a) := by
  cases hb : w.spawnOk p a <;> simp [cmdStep, hb] at h
  exact h

theorem mem_createStep {e : Event} (w : World) (path : String)
    (h : e ∈ (createStep w path).1) : e = Event.fileCreate path := by
  cases hb : w.createOk path <;> simp [createStep, hb] at h
  exact h

theorem mem_writeStep {e : Event} (w : World) (path data : String)
    (h : e ∈ (writeStep w path data).1) : e = Event.fileWrite path data := by
  cases hb : w.writeOk path <;> simp [writeStep, hb] at h
  exact h

theorem mem_flushStep {e : Event} (w : World) (path : String)
    (h : e ∈ (flushStep w path).1) : e = Event.fileFlush path := by
  cases hb : w.flushOk path <;> simp [flushStep, hb] at h
  exact h

theorem mem_andThenStep {e : Event} (a : List Event × Bool)
    (k : Unit → List Event × Bool) (h : e ∈ (andThenStep a k).1) :
    e ∈ a.1 ∨ e ∈ (k ()).1 := by
  rw [andThenStep_fst] at h
  rcases List.mem_append.mp h with h1 | h2
  · exact Or.inl h1
  · cases hb : a.2 <;> rw [hb] at h2 <;> simp at h2
    exact Or.inr h2

theorem mem_writeLinesLoop {e : Event} (w : World) (path : String) (ls : List String)
    (h : e ∈ (writeLinesLoop w path ls).1) : ∃ d, e = Event.fileWrite path d := by
  induction ls with
  | nil => simp [writeLinesLoop] at h
  | cons l ls ih =>
    rcases mem_andThenStep _ _ h with h1 | h2
    · exact ⟨_, mem_writeStep w path _ h1⟩
    · exact ih h2

theorem mem_settingsLoop {e : Event} (w : World) (path : String)
    (h : e ∈ (settingsLoop w path).1) :
    e = Event.fileOpen "dust.settings" ∨ ∃ d, e = Event.fileWrite path d := by
  unfold settingsLoop at h
  cases hs : w.settings with
  | none => rw [hs] at h; simp at h
  | some content =>
    rw [hs] at h
    rcases mem_andThenStep _ _ h with h1 | h2
    · simp at h1; exact Or.inl h1
    · exact Or.inr (mem_writeLinesLoop w path _ h2)

/-- Every event of a per-service setup block is one of the nine actions of
the block's source lines, with the service's own paths. -/
theorem mem_perServiceSetup {e : Event} (w : World) (n : String)
    (h : e ∈ (perServiceSetup w n).1) :
    e = Event.cmd "cargo" ["install", "--path", "/dust/" ++ n ++ "/."]
        (w.exitCode "cargo" ["install", "--path", "/dust/" ++ n ++ "/."]) ∨
    e = Event.cmd "cp" ["/dust/dustcfg/" ++ n ++ ".service", "/etc/systemd/system/."]
        (w.exitCode "cp" ["/dust/dustcfg/" ++ n ++ ".service", "/etc/systemd/system/."]) ∨
    e = Event.cmd "rm" ["-rf", overrideDir n] (w.exitCode "rm" ["-rf", overrideDir n]) ∨
    e = Event.cmd "mkdir" [overrideDir n] (w.exitCode "mkdir" [overrideDir n]) ∨
    e = Event.fileCreate (confPath n) ∨
    e = Event.fileWrite (confPath n) "[Service]\n" ∨
    e = Event.fileOpen "dust.settings" ∨
    (∃ d, e = Event.fileWrite (confPath n) d) ∨
    e = Event.fileFlush (confPath n) := by
  unfold perServiceSetup at h
  rcases mem_andThenStep _ _ h with h1 | h
  · exact Or.inl (mem_cmdStep w _ _ h1)
  rcases mem_andThenStep _ _ h with h1 | h
  · exact Or.inr (Or.inl (mem_cmdStep w _ _ h1))
  rcases mem_andThenStep _ _ h with h1 | h
  · exact Or.inr (Or.inr (Or.inl (mem_cmdStep w _ _ h1)))
  rcases mem_andThenStep _ _ h with h1 | h
  · exact Or.inr (Or.inr (Or.inr (Or.inl (mem_cmdStep w _ _ h1))))
  rcases mem_andThenStep _ _ h with h1 | h
  · exact Or.inr (Or.inr (Or.inr (Or.inr (Or.inl (mem_createStep w _ h1)))))
  rcases mem_andThenStep _ _ h with h1 | h
  · exact Or.inr (Or.inr (Or.inr (Or.inr (Or.inr (Or.inl (mem_writeStep w _ _ h1))))))
  rcases mem_andThenStep _ _ h with h1 | h
  · rcases mem_settingsLoop w _ h1 with h2 | h2
    · exact Or.inr (Or.inr (Or.inr (Or.inr (Or.inr (Or.inr (Or.inl h2))))))
    · exact Or.inr (Or.inr (Or.inr (Or.inr (Or.inr (Or.inr (Or.inr (Or.inl h2)))))))
  · exact Or.inr (Or.inr (Or.inr (Or.inr (Or.inr (Or.inr (Or.inr (Or.inr
      (mem_flushStep w _ h))))))))

/-! ### Explicit traces under success -/

theorem writeLinesLoop_of_writeOk (w : World) (path : String)
    (h : w.writeOk path = true) (ls : List String) :
    writeLinesLoop w path ls =
      (ls.map (fun l => Event.fileWrite path (transcodeLine l ++ "\n")), true) := by
  induction ls with
  | nil => rfl
  | cons l ls ih => simp [writeLinesLoop, andThenStep, writeStep, h, ih]

/-- Under a success of the whole per-service block (and a readable
settings file), the block's trace is the nine source actions in program
order. -/
theorem perServiceSetup_of_success (w : World) (n content : String)
    (hset : w.settings = some content) (h : (perServiceSetup w n).2 = true) :
    perServiceSetup w n =
      (Event.cmd "cargo" ["install", "--path", "/dust/" ++ n ++ "/."]
          (w.exitCode "cargo" ["install", "--path", "/dust/" ++ n ++ "/."]) ::
       Event.cmd "cp" ["/dust/dustcfg/" ++ n ++ ".service", "/etc/systemd/system/."]
          (w.exitCode "cp" ["/dust/dustcfg/" ++ n ++ ".service", "/etc/systemd/system/."]) ::
       Event.cmd "rm" ["-rf", overrideDir n] (w.exitCode "rm" ["-rf", overrideDir n]) ::
       Event.cmd "mkdir" [overrideDir n] (w.exitCode "mkdir" [overrideDir n]) ::
       Event.fileCreate (confPath n) ::
       Event.fileWrite (confPath n) "[Service]\n" ::
       Event.fileOpen "dust.settings" ::
       ((rustLines content).map
          (fun l => Event.fileWrite (confPath n) (transcodeLine l ++ "\n")) ++
        [Event.fileFlush (confPath n)]), true) := by
  simp only [perServiceSetup, andThenStep_snd, cmdStep_snd, createStep_snd,
    writeStep_snd, flushStep_snd, settingsLoop, hset, Bool.and_eq_true] at h
  obtain ⟨h1, h2, h3, h4, h5, h6, h7, h8⟩ := h
  have hwl := writeLinesLoop_of_writeOk w (confPath n) h6 (rustLines content)
  simp [perServiceSetup, andThenStep, cmdStep, createStep, writeStep, flushStep,
    settingsLoop, hset, h1, h2, h3, h4, h5, h6, h8, hwl]

theorem setupLoop_fst (w : World) :
    (setupLoop w servicesList).1 =
      (perServiceSetup w "dustweb").1 ++
        (if (perServiceSetup w "dustweb").2 = true
         then (perServiceSetup w "dustdb").1 else []) := by
  simp [setupLoop, servicesList, andThenStep_fst]

theorem setupLoop_snd (w : World) :
    (setupLoop w servicesList).2 =
      ((perServiceSetup w "dustweb").2 && (perServiceSetup w "dustdb").2) := by
  simp [setupLoop, servicesList, andThenStep_snd]

theorem setup_services_fst (w : World) :
    (setup_services w).1 =
      (setupLoop w servicesList).1 ++
        (if (setupLoop w servicesList).2 = true then (reloadActivate w).1 else []) :=
  andThenStep_fst _ _

theorem setup_services_snd (w : World) :
    (setup_services w).2 = ((setupLoop w servicesList).2 && (reloadActivate w).2) :=
  andThenStep_snd _ _

theorem reloadActivate_of_success (w : World) (h : (reloadActivate w).2 = true) :
    reloadActivate w =
      ([Event.cmd "systemctl" ["daemon-reload"] (w.exitCode "systemctl" ["daemon-reload"]),
        Event.cmd "systemctl" ["enable", "dustweb"] (w.exitCode "systemctl" ["enable", "dustweb"]),
        Event.cmd "systemctl" ["start", "dustweb"] (w.exitCode "systemctl" ["start", "dustweb"]),
        Event.cmd "systemctl" ["enable", "dustdb"] (w.exitCode "systemctl" ["enable", "dustdb"]),
        Event.cmd "systemctl" ["start", "dustdb"] (w.exitCode "systemctl" ["start", "dustdb"])],
       true) := by
  simp only [reloadActivate, activateLoop, servicesList, andThenStep_snd, cmdStep_snd,
    Bool.and_eq_true, Bool.and_true] at h
  obtain ⟨h1, h2, h3, h4, h5⟩ := h
  simp [reloadActivate, activateLoop, servicesList, andThenStep, cmdStep,
    h1, h2, h3, h4, h5]

/-- `true` iff the event is an invocation of the service manager. -/
def isMgrCmd : Event → Bool
  | Event.cmd p _ _ => p == "systemctl"
  | _ => false

theorem perServiceSetup_no_mgr (w : World) (n : String) :
    ∀ e ∈ (perServiceSetup w n).1, isMgrCmd e = false := by
  intro e he
  rcases mem_perServiceSetup w n he with h | h | h | h | h | h | h | ⟨d, h⟩ | h <;>
    subst h <;> rfl

theorem setupLoop_no_mgr (w : World) :
    ∀ e ∈ (setupLoop w servicesList).1, isMgrCmd e = false := by
  intro e he
  rw [setupLoop_fst] at he
  rcases List.mem_append.mp he with h1 | h2
  · exact perServiceSetup_no_mgr w _ e h1
  · by_cases hc : (perServiceSetup w "dustweb").2 = true
    · rw [if_pos hc] at h2
      exact perServiceSetup_no_mgr w _ e h2
    · rw [if_neg hc] at h2
      simp at h2

/-- The concrete world of a fully successful run: every subprocess spawns
and exits 0, every file operation succeeds, and `dust.settings` holds the
spec's example content. -/
def wOK : World where
  spawnOk := fun _ _ => true
  exitCode := fun _ _ => 0
  createOk := fun _ => true
  writeOk := fun _ => true
  flushOk := fun _ => true
  settings := some "export PORT=3000\nDUST_PATH=/var/dust\n"

/-- C4 (confirmed): in every complete (successful) run, the whole trace is
the setup trace — which has completed for every service and contains no
service-manager call — followed by the single `daemon-reload`, followed by
enable-then-start for each service in the fixed order.  Hence `reload`
never precedes the end of per-service setup, no `enable`/`start` precedes
`reload`, and each service's `enable` precedes its own `start`. -/
theorem reload_enable_start_ordering (w : World) (h : (setup_services w).2 = true) :
    (setup_services w).1
      = (setupLoop w servicesList).1 ++
        [Event.cmd "systemctl" ["daemon-reload"] (w.exitCode "systemctl" ["daemon-reload"]),
         Event.cmd "systemctl" ["enable", "dustweb"] (w.exitCode "systemctl" ["enable", "dustweb"]),
         Event.cmd "systemctl" ["start", "dustweb"] (w.exitCode "systemctl" ["start", "dustweb"]),
         Event.cmd "systemctl" ["enable", "dustdb"] (w.exitCode "systemctl" ["enable", "dustdb"]),
         Event.cmd "systemctl" ["start", "dustdb"] (w.exitCode "systemctl" ["start", "dustdb"])] ∧
    (setupLoop w servicesList).2 = true ∧
    ∀ e ∈ (setupLoop w servicesList).1, isMgrCmd e = false := by
  rw [setup_services_snd, Bool.and_eq_true] at h
  obtain ⟨hs, hr⟩ := h
  refine ⟨?_, hs, setupLoop_no_mgr w⟩
  rw [setup_services_fst, hs, if_pos rfl, reloadActivate_of_success w hr]

theorem reload_enable_start_ordering_witness :
    (setup_services wOK).1
      = (setupLoop wOK servicesList).1 ++
        [Event.cmd "systemctl" ["daemon-reload"] (wOK.exitCode "systemctl" ["daemon-reload"]),
         Event.cmd "systemctl" ["enable", "dustweb"] (wOK.exitCode "systemctl" ["enable", "dustweb"]),
         Event.cmd "systemctl" ["start", "dustweb"] (wOK.exitCode "systemctl" ["start", "dustweb"]),
         Event.cmd "systemctl" ["enable", "dustdb"] (wOK.exitCode "systemctl" ["enable", "dustdb"]),
         Event.cmd "systemctl" ["start", "dustdb"] (wOK.exitCode "systemctl" ["start", "dustdb"])] ∧
    (setupLoop wOK servicesList).2 = true :=
  ⟨(reload_enable_start_ordering wOK rfl).1, (reload_enable_start_ordering wOK rfl).2.1⟩

/-- The world in which `dust.settings` is missing and everything else
succeeds. -/
def wNoSettings : World := { wOK with settings := none }

/-- C2 counterexample: with the settings file missing (and nothing else
failing), the run does fail — but only after the first service's override
directory has been removed (`rm -rf`), recreated (`mkdir`) and its conf
file created and written with the `[Service]` header, because
`dust.settings` is only opened after those steps.  The claim that no
override directory is touched is false. -/
theorem missing_settings_touches_override_counterexample :
    (setup_services wNoSettings).2 = false ∧
    Event.cmd "rm" ["-rf", overrideDir "dustweb"] 0 ∈ (setup_services wNoSettings).1 ∧
    Event.cmd "mkdir" [overrideDir "dustweb"] 0 ∈ (setup_services wNoSettings).1 ∧
    Event.fileCreate (confPath "dustweb") ∈ (setup_services wNoSettings).1 ∧
    Event.fileWrite (confPath "dustweb") "[Service]\n" ∈ (setup_services wNoSettings).1 := by
  decide

/-- C2 (corrected): if the settings file is missing the orchestration run
does fail with a fatal I/O error, and no service-manager command
(daemon-reload, enable or start) is ever issued; but the failure is
raised only when the first service's settings read is attempted, by which
time that service's override directory has already been removed,
recreated and written with the conf header — see the counterexample. -/
theorem missing_settings_fatal_before_activation (w : World) (h : w.settings = none) :
    (setup_services w).2 = false ∧
    ∀ e ∈ (setup_services w).1, isMgrCmd e = false := by
  have hps : ∀ n, (perServiceSetup w n).2 = false := by
    intro n
    simp [perServiceSetup, andThenStep_snd, settingsLoop, h]
  have hsl : (setupLoop w servicesList).2 = false := by
    rw [setupLoop_snd, hps, Bool.false_and]
  constructor
  · rw [setup_services_snd, hsl, Bool.false_and]
  · intro e he
    rw [setup_services_fst, hsl] at he
    simp only [Bool.false_eq_true, if_false, List.append_nil] at he
    exact setupLoop_no_mgr w e he

theorem missing_settings_fatal_before_activation_witness :
    (setup_services wNoSettings).2 = false ∧
    ∀ e ∈ (setup_services wNoSettings).1, isMgrCmd e = false :=
  missing_settings_fatal_before_activation wNoSettings rfl

/-- The world in which every `cp` invocation exits with status 1 (the exit
of a copy with a missing source file or permission denial) and everything
else succeeds. -/
def wCpExitFail : World := { wOK with exitCode := fun p _ => if p = "cp" then 1 else 0 }

/-- C3 counterexample: a run in which both `cp` invocations report exit
status 1 still completes successfully, because `Command::output` only
fails when the process cannot be spawned and the captured status is never
inspected.  The claim that a failed copy aborts the run is false. -/
theorem cp_exit_failure_ignored_counterexample :
    (setup_services wCpExitFail).2 = true ∧
    Event.cmd "cp" ["/dust/dustcfg/dustweb.service", "/etc/systemd/system/."] 1
      ∈ (setup_services wCpExitFail).1 := by
  decide

/-- C3 (corrected): what is fatal in the Unit File Installer is the copy
process failing to launch (`Command::output` returning an `Err`); a `cp`
that launches and then fails — missing source file or permission denied,
reported as a nonzero exit status — is captured but not inspected and
does not abort the run (see the counterexample). -/
theorem cp_spawn_failure_fatal (w : World) (n : String) (hn : n ∈ servicesList)
    (h : w.spawnOk "cp" ["/dust/dustcfg/" ++ n ++ ".service", "/etc/systemd/system/."]
        = false) :
    (setup_services w).2 = false := by
  have key : ∀ m : String,
      w.spawnOk "cp" ["/dust/dustcfg/" ++ m ++ ".service", "/etc/systemd/system/."] = false →
      (perServiceSetup w m).2 = false := by
    intro m hm
    simp [perServiceSetup, andThenStep_snd, cmdStep_snd, hm]
  simp only [servicesList, List.mem_cons, List.not_mem_nil, or_false] at hn
  rw [setup_services_snd, setupLoop_snd]
  rcases hn with rfl | rfl
  · rw [key _ h]
    simp
  · rw [key _ h]
    simp

/-- The world in which the `cp` binary cannot be launched at all and
everything else succeeds. -/
def wCpSpawnFail : World := { wOK with spawnOk := fun p _ => !(p == "cp") }

theorem cp_spawn_failure_fatal_witness : (setup_services wCpSpawnFail).2 = false :=
  cp_spawn_failure_fatal wCpSpawnFail "dustweb" (by decide) rfl

/-! ### C9: phase ordering inside a per-service block -/

/-- The source-order phase of an action inside a per-service setup block:
build invocation, unit-file copy, override-directory removal,
override-directory creation, conf-file work. -/
def stepRank : Event → Nat
  | Event.cmd "cargo" _ _ => 0
  | Event.cmd "cp" _ _ => 1
  | Event.cmd "rm" _ _ => 2
  | Event.cmd "mkdir" _ _ => 3
  | _ => 4

/-- Phase order on events. -/
def rankLE (a b : Event) : Prop := stepRank a ≤ stepRank b

theorem pairwise_rank_of_const {l : List Event} {k : Nat}
    (h : ∀ e ∈ l, stepRank e = k) : l.Pairwise rankLE :=
  List.pairwise_of_forall_mem_list (fun a ha b hb => by
    unfold rankLE
    rw [h a ha, h b hb])

/-- The trace of `x` is phase-sorted and every phase in it is at least
`k`. -/
def GoodFrom (k : Nat) (x : List Event × Bool) : Prop :=
  x.1.Pairwise rankLE ∧ ∀ e ∈ x.1, k ≤ stepRank e

theorem goodFrom_of_const {k : Nat} {x : List Event × Bool}
    (h : ∀ e ∈ x.1, stepRank e = k) : GoodFrom k x :=
  ⟨pairwise_rank_of_const h, fun e he => le_of_eq (h e he).symm⟩

theorem goodFrom_seq (k₁ k₂ : Nat) (hk : k₁ ≤ k₂) (a K : List Event × Bool)
    (ha : ∀ e ∈ a.1, stepRank e = k₁)
    (hK : GoodFrom k₂ K) : GoodFrom k₁ (andThenStep a (fun _ => K)) := by
  obtain ⟨hKp, hKb⟩ := hK
  constructor
  · rw [andThenStep_fst]
    by_cases hc : a.2 = true
    · rw [if_pos hc, List.pairwise_append]
      refine ⟨pairwise_rank_of_const ha, hKp, ?_⟩
      intro x hx y hy
      unfold rankLE
      rw [ha x hx]
      exact le_trans hk (hKb y hy)
    · rw [if_neg hc, List.append_nil]
      exact pairwise_rank_of_const ha
  · intro e he
    rw [andThenStep_fst] at he
    rcases List.mem_append.mp he with h1 | h2
    · rw [ha e h1]
    · by_cases hc : a.2 = true
      · rw [if_pos hc] at h2
        exact le_trans hk (hKb e h2)
      · rw [if_neg hc] at h2
        simp at h2

/-- Inside one per-service setup block the phases only increase: the build
invocation comes first, then the unit-file copy, then the
override-directory removal, recreation, and conf-file writing. -/
theorem perServiceSetup_pairwise (w : World) (n : String) :
    (perServiceSetup w n).1.Pairwise rankLE := by
  have g8 : GoodFrom 4 (flushStep w (confPath n)) :=
    goodFrom_of_const (fun e he => by rcases mem_flushStep w _ he with rfl; rfl)
  have g7 := goodFrom_seq 4 4 le_rfl (settingsLoop w (confPath n)) _
    (fun e he => by rcases mem_settingsLoop w _ he with h | ⟨d, h⟩ <;> subst h <;> rfl) g8
  have g6 := goodFrom_seq 4 4 le_rfl (writeStep w (confPath n) "[Service]\n") _
    (fun e he => by rcases mem_writeStep w _ _ he with rfl; rfl) g7
  have g5 := goodFrom_seq 4 4 le_rfl (createStep w (confPath n)) _
    (fun e he => by rcases mem_createStep w _ he with rfl; rfl) g6
  have g4 := goodFrom_seq 3 4 (by decide) (cmdStep w "mkdir" [overrideDir n]) _
    (fun e he => by rcases mem_cmdStep w _ _ he with rfl; rfl) g5
  have g3 := goodFrom_seq 2 3 (by decide) (cmdStep w "rm" ["-rf", overrideDir n]) _
    (fun e he => by rcases mem_cmdStep w _ _ he with rfl; rfl) g4
  have g2 := goodFrom_seq 1 2 (by decide)
    (cmdStep w "cp" ["/dust/dustcfg/" ++ n ++ ".service", "/etc/systemd/system/."]) _
    (fun e he => by rcases mem_cmdStep w _ _ he with rfl; rfl) g3
  have g1 := goodFrom_seq 0 1 (by decide)
    (cmdStep w "cargo" ["install", "--path", "/dust/" ++ n ++ "/."]) _
    (fun e he => by rcases mem_cmdStep w _ _ he with rfl; rfl) g2
  exact g1.1

/-- C9 (confirmed): the orchestrator processes the fixed service list in
order.  The full trace is the first service's setup block, then (only if
it succeeded in full) the second service's block, then (only if both
succeeded) reload and activation; within each block the phases are
ordered build → unit-file copy → override-directory removal → recreation
→ conf-file writing; and the run succeeds exactly when every block and
the reload/activation phase succeed — so a fatal error in one block stops
the run with no later service processed. -/
theorem orchestrator_per_service_order (w : World) :
    ((setup_services w).1
      = (perServiceSetup w "dustweb").1 ++
          (if (perServiceSetup w "dustweb").2 = true then
            (perServiceSetup w "dustdb").1 ++
              (if (perServiceSetup w "dustdb").2 = true then (reloadActivate w).1 else [])
          else [])) ∧
    (∀ n, (perServiceSetup w n).1.Pairwise rankLE) ∧
    ((setup_services w).2 = true ↔
      ((perServiceSetup w "dustweb").2 = true ∧ (perServiceSetup w "dustdb").2 = true ∧
        (reloadActivate w).2 = true)) := by
  refine ⟨?_, perServiceSetup_pairwise w, ?_⟩
  · rw [setup_services_fst, setupLoop_fst, setupLoop_snd]
    by_cases h1 : (perServiceSetup w "dustweb").2 = true
    · by_cases h2 : (perServiceSetup w "dustdb").2 = true
      · rw [h1, h2]
        simp
      · rw [h1]
        rw [Bool.not_eq_true] at h2
        rw [h2]
        simp
    · rw [Bool.not_eq_true] at h1
      rw [h1]
      simp
  · rw [setup_services_snd, setupLoop_snd]
    simp [Bool.and_eq_true, and_assoc]

/-! ### C8: exit statuses are captured but never inspected -/

/-- Forget the captured exit status of a command event. -/
def eraseExit : Event → Event
  | Event.cmd p a _ => Event.cmd p a 0
  | e => e

/-- A trace up to the captured exit statuses. -/
def eraseExits (l : List Event) : List Event := l.map eraseExit

/-- Two outcomes agree up to captured exit statuses. -/
def SameMod (x y : List Event × Bool) : Prop :=
  eraseExits x.1 = eraseExits y.1 ∧ x.2 = y.2

theorem sameMod_rfl (x : List Event × Bool) : SameMod x x := ⟨rfl, rfl⟩

theorem sameMod_andThenStep (a a' : List Event × Bool) (k k' : Unit → List Event × Bool)
    (h1 : SameMod a a') (h2 : SameMod (k ()) (k' ())) :
    SameMod (andThenStep a k) (andThenStep a' k') := by
  obtain ⟨ht, hb⟩ := h1
  obtain ⟨ht2, hb2⟩ := h2
  refine ⟨?_, by rw [andThenStep_snd, andThenStep_snd, hb, hb2]⟩
  rw [andThenStep_fst, andThenStep_fst]
  show List.map _ _ = List.map _ _
  rw [List.map_append, List.map_append]
  have ht' : List.map eraseExit a.1 = List.map eraseExit a'.1 := ht
  rw [ht', hb]
  congr 1
  cases hc : a'.2 <;> simp [hc]
  exact ht2

theorem sameMod_of_eq {x y : List Event × Bool} (h : x = y) : SameMod x y :=
  h ▸ sameMod_rfl x

theorem sameMod_cmdStep (w w' : World) (hsp : w'.spawnOk = w.spawnOk) (p : String)
    (a : List String) :
    SameMod (cmdStep w' p a) (cmdStep w p a) := by
  cases h : w.spawnOk p a <;>
    simp [cmdStep, SameMod, eraseExits, eraseExit, hsp, h]

theorem createStep_congr (w w' : World) (hc : w'.createOk = w.createOk) (path : String) :
    createStep w' path = createStep w path := by
  unfold createStep
  rw [hc]

theorem writeStep_congr (w w' : World) (hw : w'.writeOk = w.writeOk) (path data : String) :
    writeStep w' path data = writeStep w path data := by
  unfold writeStep
  rw [hw]

theorem flushStep_congr (w w' : World) (hf : w'.flushOk = w.flushOk) (path : String) :
    flushStep w' path = flushStep w path := by
  unfold flushStep
  rw [hf]

theorem writeLinesLoop_congr (w w' : World) (hw : w'.writeOk = w.writeOk)
    (path : String) (ls : List String) :
    writeLinesLoop w' path ls = writeLinesLoop w path ls := by
  induction ls with
  | nil => rfl
  | cons l ls ih =>
    show andThenStep _ _ = andThenStep _ _
    rw [writeStep_congr w w' hw]
    exact congrArg _ (funext fun _ => ih)

theorem settingsLoop_congr (w w' : World) (hw : w'.writeOk = w.writeOk)
    (hs : w'.settings = w.settings) (path : String) :
    settingsLoop w' path = settingsLoop w path := by
  unfold settingsLoop
  rw [hs]
  cases w.settings with
  | none => rfl
  | some content =>
    show andThenStep ([Event.fileOpen "dust.settings"], true)
        (fun _ => writeLinesLoop w' path (rustLines content))
      = andThenStep ([Event.fileOpen "dust.settings"], true)
        (fun _ => writeLinesLoop w path (rustLines content))
    exact congrArg _ (funext fun _ => writeLinesLoop_congr w w' hw path (rustLines content))

theorem sameMod_perServiceSetup (w w' : World) (hsp : w'.spawnOk = w.spawnOk)
    (hc : w'.createOk = w.createOk) (hw : w'.writeOk = w.writeOk)
    (hf : w'.flushOk = w.flushOk) (hs : w'.settings = w.settings) (n : String) :
    SameMod (perServiceSetup w' n) (perServiceSetup w n) := by
  unfold perServiceSetup
  refine sameMod_andThenStep _ _ _ _ (sameMod_cmdStep w w' hsp _ _) ?_
  refine sameMod_andThenStep _ _ _ _ (sameMod_cmdStep w w' hsp _ _) ?_
  refine sameMod_andThenStep _ _ _ _ (sameMod_cmdStep w w' hsp _ _) ?_
  refine sameMod_andThenStep _ _ _ _ (sameMod_cmdStep w w' hsp _ _) ?_
  refine sameMod_andThenStep _ _ _ _ (sameMod_of_eq (createStep_congr w w' hc _)) ?_
  refine sameMod_andThenStep _ _ _ _ (sameMod_of_eq (writeStep_congr w w' hw _ _)) ?_
  refine sameMod_andThenStep _ _ _ _ (sameMod_of_eq (settingsLoop_congr w w' hw hs _)) ?_
  exact sameMod_of_eq (flushStep_congr w w' hf _)

/-- C8 (confirmed): the exit statuses the spawned subprocesses report
(build tool, daemon-reload, enable, start — and also `cp`, `rm`, `mkdir`)
are captured in the trace but never inspected: however the world rewrites
them (an arbitrary `f`), the run performs the same external actions in
the same order and has the same success outcome. -/
theorem exit_status_never_inspected (w : World) (f : String → List String → Int) :
    eraseExits (setup_services { w with exitCode := f }).1
      = eraseExits (setup_services w).1 ∧
    (setup_services { w with exitCode := f }).2 = (setup_services w).2 := by
  have h : SameMod (setup_services { w with exitCode := f }) (setup_services w) := by
    unfold setup_services reloadActivate setupLoop activateLoop servicesList
    refine sameMod_andThenStep _ _ _ _ ?_ ?_
    · refine sameMod_andThenStep _ _ _ _
        (sameMod_perServiceSetup w { w with exitCode := f } rfl rfl rfl rfl rfl _) ?_
      refine sameMod_andThenStep _ _ _ _
        (sameMod_perServiceSetup w { w with exitCode := f } rfl rfl rfl rfl rfl _) ?_
      exact sameMod_rfl _
    · refine sameMod_andThenStep _ _ _ _
        (sameMod_cmdStep w { w with exitCode := f } rfl _ _) ?_
      refine sameMod_andThenStep _ _ _ _
        (sameMod_cmdStep w { w with exitCode := f } rfl _ _) ?_
      refine sameMod_andThenStep _ _ _ _
        (sameMod_cmdStep w { w with exitCode := f } rfl _ _) ?_
      refine sameMod_andThenStep _ _ _ _
        (sameMod_cmdStep w { w with exitCode := f } rfl _ _) ?_
      refine sameMod_andThenStep _ _ _ _
        (sameMod_cmdStep w { w with exitCode := f } rfl _ _) ?_
      exact sameMod_rfl _
  exact h

/-! ### C5/C10: the content the trace leaves in a file

The content of the file at `path` is recovered from the trace: `rm -rf d`
deletes every file under the directory `d`, `File::create` truncates the
file to empty, and each `write` appends. -/

/-- Effect of one traced event on the content of the file at `path`
(`none` = the file does not exist). -/
def applyEvent (path : String) (acc : Option String) : Event → Option String
  | Event.cmd p args _ =>
    if p = "rm" then
      match args with
      | ["-rf", d] => if d.toList.isPrefixOf path.toList then none else acc
      | _ => acc
    else acc
  | Event.fileCreate q => if q = path then some "" else acc
  | Event.fileWrite q dt => if q = path then some (acc.getD "" ++ dt) else acc
  | Event.fileOpen _ => acc
  | Event.fileFlush _ => acc

/-- The content of the file at `path` after a trace, starting from a
filesystem in which the file does not exist. -/
def fileContent (path : String) (tr : List Event) : Option String :=
  tr.foldl (applyEvent path) none

theorem applyEvent_cmd_not_rm (path : String) (acc : Option String) (p : String)
    (args : List String) (x : Int) (h : ¬ p = "rm") :
    applyEvent path acc (Event.cmd p args x) = acc := by
  simp [applyEvent, h]

theorem applyEvent_rm_of_under (path : String) (acc : Option String) (d : String) (x : Int)
    (h : d.toList.isPrefixOf path.toList = true) :
    applyEvent path acc (Event.cmd "rm" ["-rf", d] x) = none := by
  have h' : d.data <+: path.data := (isPrefixOf_eq_true_iff _ _).mp h
  simp [applyEvent, h']

theorem applyEvent_rm_of_not_under (path : String) (acc : Option String) (d : String)
    (x : Int) (h : d.toList.isPrefixOf path.toList = false) :
    applyEvent path acc (Event.cmd "rm" ["-rf", d] x) = acc := by
  have h' : ¬ d.data <+: path.data := by
    rw [← isPrefixOf_eq_true_iff _ _]
    show ¬ d.toList.isPrefixOf path.toList = true
    rw [h]
    simp
  simp [applyEvent, h']

theorem applyEvent_create_self (path : String) (acc : Option String) :
    applyEvent path acc (Event.fileCreate path) = some "" := by
  simp [applyEvent]

theorem applyEvent_create_other (path : String) (acc : Option String) (q : String)
    (h : ¬ q = path) : applyEvent path acc (Event.fileCreate q) = acc := by
  simp [applyEvent, h]

theorem applyEvent_write_self (path a dt : String) :
    applyEvent path (some a) (Event.fileWrite path dt) = some (a ++ dt) := by
  simp [applyEvent]

theorem applyEvent_write_other (path : String) (acc : Option String) (q dt : String)
    (h : ¬ q = path) : applyEvent path acc (Event.fileWrite q dt) = acc := by
  simp [applyEvent, h]

theorem applyEvent_open (path : String) (acc : Option String) (s : String) :
    applyEvent path acc (Event.fileOpen s) = acc := rfl

theorem applyEvent_flush (path : String) (acc : Option String) (s : String) :
    applyEvent path acc (Event.fileFlush s) = acc := rfl

/-- The override directory of a service is a path-prefix of that
service's conf file. -/
theorem overrideDir_isPrefixOf_confPath (n : String) :
    (overrideDir n).toList.isPrefixOf (confPath n).toList = true := by
  rw [isPrefixOf_eq_true_iff _ _]
  show (overrideDir n).data <+: (overrideDir n ++ n ++ ".conf").data
  rw [String.data_append, String.data_append]
  exact (List.prefix_append _ _).trans (List.prefix_append _ _)

/-- Folding the line writes of the settings loop appends every transcoded,
newline-terminated line. -/
theorem foldl_applyEvent_transcoded (path : String) (ls : List String) (a : String) :
    List.foldl (applyEvent path) (some a)
      (ls.map (fun l => Event.fileWrite path (transcodeLine l ++ "\n")))
      = some (a ++ concatAll (ls.map (fun l => transcodeLine l ++ "\n"))) := by
  induction ls generalizing a with
  | nil => simp [concatAll, String.append_empty]
  | cons l ls ih =>
    simp only [List.map_cons, List.foldl_cons, applyEvent_write_self]
    rw [ih]
    show _ = some (a ++ ((transcodeLine l ++ "\n") ++ concatAll _))
    rw [String.append_assoc]

theorem foldl_applyEvent_writes_other (path q : String) (h : ¬ q = path)
    (ls : List String) (a : Option String) :
    List.foldl (applyEvent path) a
      (ls.map (fun l => Event.fileWrite q (transcodeLine l ++ "\n"))) = a := by
  induction ls generalizing a with
  | nil => rfl
  | cons l ls ih =>
    simp only [List.map_cons, List.foldl_cons, applyEvent_write_other path a q _ h]
    exact ih a

/-- Folding a service's own setup block over its conf path: the `rm -rf`
erases whatever was there, `File::create` truncates, the header and the
transcoded lines are appended — the result is exactly
`confFileContent`. -/
theorem foldl_own_block (w : World) (content n : String) (a : Option String) :
    List.foldl (applyEvent (confPath n)) a
      (Event.cmd "cargo" ["install", "--path", "/dust/" ++ n ++ "/."]
          (w.exitCode "cargo" ["install", "--path", "/dust/" ++ n ++ "/."]) ::
       Event.cmd "cp" ["/dust/dustcfg/" ++ n ++ ".service", "/etc/systemd/system/."]
          (w.exitCode "cp" ["/dust/dustcfg/" ++ n ++ ".service", "/etc/systemd/system/."]) ::
       Event.cmd "rm" ["-rf", overrideDir n] (w.exitCode "rm" ["-rf", overrideDir n]) ::
       Event.cmd "mkdir" [overrideDir n] (w.exitCode "mkdir" [overrideDir n]) ::
       Event.fileCreate (confPath n) ::
       Event.fileWrite (confPath n) "[Service]\n" ::
       Event.fileOpen "dust.settings" ::
       ((rustLines content).map
          (fun l => Event.fileWrite (confPath n) (transcodeLine l ++ "\n")) ++
        [Event.fileFlush (confPath n)]))
      = some (confFileContent content) := by
  simp only [List.foldl_cons]
  rw [applyEvent_cmd_not_rm _ _ "cargo" _ _ (by decide),
    applyEvent_cmd_not_rm _ _ "cp" _ _ (by decide),
    applyEvent_rm_of_under _ _ _ _ (overrideDir_isPrefixOf_confPath n),
    applyEvent_cmd_not_rm _ _ "mkdir" _ _ (by decide),
    applyEvent_create_self, applyEvent_write_self, applyEvent_open,
    String.empty_append, List.foldl_append, foldl_applyEvent_transcoded]
  simp only [List.foldl_cons, List.foldl_nil, applyEvent_flush]
  rfl

/-- Folding another service's setup block over a foreign conf path leaves
the content unchanged. -/
theorem foldl_other_block (w : World) (content : String) (path m : String)
    (a : Option String)
    (hrm : (overrideDir m).toList.isPrefixOf path.toList = false)
    (hpath : ¬ confPath m = path) :
    List.foldl (applyEvent path) a
      (Event.cmd "cargo" ["install", "--path", "/dust/" ++ m ++ "/."]
          (w.exitCode "cargo" ["install", "--path", "/dust/" ++ m ++ "/."]) ::
       Event.cmd "cp" ["/dust/dustcfg/" ++ m ++ ".service", "/etc/systemd/system/."]
          (w.exitCode "cp" ["/dust/dustcfg/" ++ m ++ ".service", "/etc/systemd/system/."]) ::
       Event.cmd "rm" ["-rf", overrideDir m] (w.exitCode "rm" ["-rf", overrideDir m]) ::
       Event.cmd "mkdir" [overrideDir m] (w.exitCode "mkdir" [overrideDir m]) ::
       Event.fileCreate (confPath m) ::
       Event.fileWrite (confPath m) "[Service]\n" ::
       Event.fileOpen "dust.settings" ::
       ((rustLines content).map
          (fun l => Event.fileWrite (confPath m) (transcodeLine l ++ "\n")) ++
        [Event.fileFlush (confPath m)]))
      = a := by
  simp only [List.foldl_cons]
  rw [applyEvent_cmd_not_rm _ _ "cargo" _ _ (by decide),
    applyEvent_cmd_not_rm _ _ "cp" _ _ (by decide),
    applyEvent_rm_of_not_under _ _ _ _ hrm,
    applyEvent_cmd_not_rm _ _ "mkdir" _ _ (by decide),
    applyEvent_create_other _ _ _ hpath, applyEvent_write_other _ _ _ _ hpath,
    applyEvent_open, List.foldl_append, foldl_applyEvent_writes_other _ _ hpath]
  simp only [List.foldl_cons, List.foldl_nil, applyEvent_flush]

theorem foldl_reloadActivate (path : String) (w : World) (a : Option String) :
    List.foldl (applyEvent path) a
      [Event.cmd "systemctl" ["daemon-reload"] (w.exitCode "systemctl" ["daemon-reload"]),
       Event.cmd "systemctl" ["enable", "dustweb"] (w.exitCode "systemctl" ["enable", "dustweb"]),
       Event.cmd "systemctl" ["start", "dustweb"] (w.exitCode "systemctl" ["start", "dustweb"]),
       Event.cmd "systemctl" ["enable", "dustdb"] (w.exitCode "systemctl" ["enable", "dustdb"]),
       Event.cmd "systemctl" ["start", "dustdb"] (w.exitCode "systemctl" ["start", "dustdb"])]
      = a := by
  simp [applyEvent]

/-- In every successful run with settings content `content`, the conf
file of each service holds exactly `confFileContent content`. -/
theorem conf_content_of_success (w : World) (content : String)
    (h1 : w.settings = some content) (h2 : (setup_services w).2 = true)
    (n : String) (hn : n ∈ servicesList) :
    fileContent (confPath n) (setup_services w).1 = some (confFileContent content) := by
  rw [setup_services_snd, Bool.and_eq_true] at h2
  obtain ⟨hs, hr⟩ := h2
  have hs' := hs
  rw [setupLoop_snd, Bool.and_eq_true] at hs'
  obtain ⟨hw1, hw2⟩ := hs'
  have tw1 := congrArg Prod.fst (perServiceSetup_of_success w "dustweb" content h1 hw1)
  have td1 := congrArg Prod.fst (perServiceSetup_of_success w "dustdb" content h1 hw2)
  have tra1 := congrArg Prod.fst (reloadActivate_of_success w hr)
  have trace_eq : (setup_services w).1
      = (perServiceSetup w "dustweb").1 ++
          ((perServiceSetup w "dustdb").1 ++ (reloadActivate w).1) := by
    rw [setup_services_fst, setupLoop_fst, hw1, hs]
    simp
  unfold fileContent
  simp only [trace_eq, tw1, td1, tra1]
  rw [List.foldl_append, List.foldl_append]
  simp only [servicesList, List.mem_cons, List.not_mem_nil, or_false] at hn
  rcases hn with rfl | rfl
  · rw [foldl_own_block w content "dustweb" none,
      foldl_other_block w content (confPath "dustweb") "dustdb" _ (by decide) (by decide),
      foldl_reloadActivate]
  · rw [foldl_other_block w content (confPath "dustdb") "dustweb" _ (by decide) (by decide),
      foldl_own_block w content "dustdb" none,
      foldl_reloadActivate]

/-- C5 (confirmed): in every successful run, for every service, the
produced conf file consists of the literal `[Service]` header line
followed by one transcoded, newline-terminated line per settings line in
source order.  (The witness instantiates the spec's scenario: settings
`export PORT=3000\nDUST_PATH=/var/dust\n` yield
`[Service]\nEnvironment=PORT=3000\nDUST_PATH=/var/dust\n`.) -/
theorem conf_file_content (w : World) (content : String)
    (h1 : w.settings = some content) (h2 : (setup_services w).2 = true)
    (n : String) (hn : n ∈ servicesList) :
    fileContent (confPath n) (setup_services w).1 = some (confFileContent content) :=
  conf_content_of_success w content h1 h2 n hn

theorem conf_file_content_witness :
    fileContent (confPath "dustweb") (setup_services wOK).1
      = some "[Service]\nEnvironment=PORT=3000\nDUST_PATH=/var/dust\n" := by
  have h := conf_file_content wOK "export PORT=3000\nDUST_PATH=/var/dust\n" rfl rfl
    "dustweb" (by decide)
  rw [h]
  rfl

/-- C10 (confirmed): within one successful run the two services' conf
files hold byte-identical content — the settings file is re-read and
re-transcoded per service, producing the same bytes each time. -/
theorem conf_files_identical_across_services (w : World) (content : String)
    (h1 : w.settings = some content) (h2 : (setup_services w).2 = true) :
    fileContent (confPath "dustweb") (setup_services w).1
      = fileContent (confPath "dustdb") (setup_services w).1 := by
  rw [conf_content_of_success w content h1 h2 "dustweb" (by decide),
    conf_content_of_success w content h1 h2 "dustdb" (by decide)]

theorem conf_files_identical_across_services_witness :
    fileContent (confPath "dustweb") (setup_services wOK).1
      = fileContent (confPath "dustdb") (setup_services wOK).1 :=
  conf_files_identical_across_services wOK "export PORT=3000\nDUST_PATH=/var/dust\n" rfl rfl

/-! ### C6: the Override Directory Manager as a directory-state transformer

The per-service sequence of main.rs lines 36-61 — `rm -rf` the override
directory, `mkdir` it, `File::create` the conf file, write the header and
the transcoded lines — is modelled as a transformer of the directory's
state: `none` = the directory does not exist, `some d` = it exists and
holds the listed files. -/

/-- The files of an override directory: filenames with their content. -/
abbrev DirState := List (String × String)

/-- `rm -rf` of the override directory (main.rs lines 37-40): best-effort
recursive removal — afterwards the directory does not exist, whether or
not it did, and a missing directory is not an error. -/
def odmRemove (_ : Option DirState) : Option DirState := none

/-- `mkdir` of the override directory (main.rs lines 43-46): creates the
directory empty when absent; on an existing directory `mkdir` exits
nonzero, which the code ignores, and the contents stay. -/
def odmMkdir : Option DirState → Option DirState
  | none => some []
  | some d => some d

/-- Assoc lookup of a file's content in a directory. -/
def lookupFile : DirState → String → Option String
  | [], _ => none
  | (g, c) :: rest, f => if g = f then some c else lookupFile rest f

/-- Set a file's content, replacing an existing entry or appending a new
one. -/
def setFile : DirState → String → String → DirState
  | [], f, c => [(f, c)]
  | (g, cv) :: rest, f, c =>
    if g = f then (f, c) :: rest else (g, cv) :: setFile rest f c

/-- `File::create` of the conf file (main.rs line 49): truncate or
create. -/
def odmCreate (f : String) (d : DirState) : DirState := setFile d f ""

/-- One `write` call to the conf file (main.rs lines 54, 59): append at
the current end of file. -/
def odmWrite (f data : String) (d : DirState) : DirState :=
  setFile d f ((lookupFile d f).getD "" ++ data)

/-- The Override Directory Manager for service `n` and settings content
`settings`, acting on the service's override-directory state: remove the
directory, recreate it, create the conf file, write the `[Service]`
header, then every transcoded settings line in order. -/
def odmRun (n settings : String) (d0 : Option DirState) : Option DirState :=
  (odmMkdir (odmRemove d0)).map (fun d1 =>
    (rustLines settings).foldl
      (fun acc l => odmWrite (n ++ ".conf") (transcodeLine l ++ "\n") acc)
      (odmWrite (n ++ ".conf") "[Service]\n" (odmCreate (n ++ ".conf") d1)))

theorem foldl_odmWrite_single (f : String) (g : String → String) (ls : List String)
    (c : String) :
    List.foldl (fun acc l => odmWrite f (g l) acc) [(f, c)] ls
      = [(f, c ++ concatAll (ls.map g))] := by
  induction ls generalizing c with
  | nil => simp [concatAll, String.append_empty]
  | cons l ls ih =>
    simp only [List.foldl_cons]
    have hstep : odmWrite f (g l) [(f, c)] = [(f, c ++ g l)] := by
      simp [odmWrite, lookupFile, setFile]
    rw [hstep, ih]
    show _ = [(f, c ++ ((g l) ++ concatAll (ls.map g)))]
    rw [String.append_assoc]

/-- Whatever the prior state of the override directory, one run of the
Override Directory Manager leaves exactly one file: the conf file with
content `confFileContent settings`. -/
theorem odmRun_eq (n settings : String) (d0 : Option DirState) :
    odmRun n settings d0 = some [(n ++ ".conf", confFileContent settings)] := by
  unfold odmRun
  have h1 : odmMkdir (odmRemove d0) = some [] := rfl
  rw [h1]
  have hc : odmWrite (n ++ ".conf") "[Service]\n" (odmCreate (n ++ ".conf") [])
      = [(n ++ ".conf", "[Service]\n")] := by
    simp [odmWrite, odmCreate, lookupFile, setFile, String.empty_append]
  simp only [Option.map_some']
  rw [hc, foldl_odmWrite_single (n ++ ".conf") (fun l => transcodeLine l ++ "\n")
    (rustLines settings) "[Service]\n"]
  rfl

/-- C6 (confirmed): for every service name, settings content and prior
directory state, a run of the Override Directory Manager leaves the
override directory holding exactly one file — the conf file with content
`confFileContent settings` — so running it twice in succession yields
byte-identical conf content after each run, a second run maps the first
run's result to itself, and no leftover file survives. -/
theorem override_dir_manager_idempotent (n settings : String) (d : Option DirState) :
    odmRun n settings d = some [(n ++ ".conf", confFileContent settings)] ∧
    odmRun n settings (odmRun n settings d) = odmRun n settings d := by
  refine ⟨odmRun_eq n settings d, ?_⟩
  rw [odmRun_eq n settings d, odmRun_eq n settings (some [(n ++ ".conf", confFileContent settings)])]

end Dustcfg
